import Mathlib

/-!
Shallow embedding of the measurement-denoising, report-decision and
sleep-scheduling core of the Delivery-Box-Reporter-LoRa firmware
(src/src/main.cpp).  Machine `unsigned long` arithmetic (32-bit on the
ESP8266) is modelled over `Nat` with explicit reduction `% U32`.
-/

namespace DeliveryBox

/-- 2^32: modulus of the ESP8266 `unsigned long`. -/
def U32 : Nat := 4294967296

/-- `#define ONE_HOUR 3600000` (milliseconds). -/
def ONE_HOUR : Nat := 3600000

/-- `#define SAMPLE_COUNT 5` — number of samples per measurement. -/
def SAMPLE_COUNT : Nat := 5

/-- `#define PUBLISH_DELAY 400` (ms to let a publish finish). -/
def PUBLISH_DELAY : Nat := 400

/-- 32-bit wrapping subtraction `a - b` on `unsigned long` values. -/
def usub (a b : Nat) : Nat := (a + U32 - b % U32) % U32

/-- `myMillis()`: `millis() + myRtc.rtc`, wrapping 32-bit addition. -/
def myMillis (millis rtc : Nat) : Nat := (millis + rtc) % U32

/-- The `MY_RTC` struct kept in RTC memory across deep sleeps. -/
structure MY_RTC where
  nextHealthReportTime : Nat
  rtc : Nat
  wasPresent : Bool
  presentReported : Bool
  absentReported : Bool
  rssi : Int
deriving DecidableEq, Repr

/-- Default-initialized `MY_RTC` (the struct's member initializers). -/
def initialRtc : MY_RTC :=
  { nextHealthReportTime := 0, rtc := 0, wasPresent := false
    presentReported := false, absentReported := false, rssi := -99 }

/-- Presence test used in `setup()` and `loop()`:
`distance>settings.mindistance && distance<settings.maxdistance`. -/
def isPresentCalc (distance mindistance maxdistance : Int) : Bool :=
  decide (distance > mindistance) && decide (distance < maxdistance)

/-- `getDistance()`: returns the raw reading if nonzero, else `-1`
(`return distance?distance:-1;`). -/
def getDistance (raw : Int) : Int := if raw = 0 then -1 else raw

/-- Occurrence count of `x` in a list (the inner `candidateCount` scan of
`measure()` counts equal values with `==`). -/
def countVal (x : Int) : List Int → Nat
  | [] => 0
  | y :: r => (if y = x then 1 else 0) + countVal x r

/-- The candidate scan of `measure()`: the outer loop runs for
`i < SAMPLE_COUNT-1`, i.e. over every suffix of length ≥ 2; the candidate
is the suffix head, its count is its number of occurrences in the suffix
(`candidateCount` starts at 1 and the inner loop scans `j>i`), and the
running best is replaced only on a strictly greater count. -/
def voteLoop : List Int → Int → Nat → Int
  | [], ans, _ => ans
  | [_], ans, _ => ans
  | x :: y :: r, ans, ansCount =>
    if ansCount < 1 + countVal x (y :: r) then
      voteLoop (y :: r) x (1 + countVal x (y :: r))
    else voteLoop (y :: r) ans ansCount

/-- `measure()`'s aggregation over the stored `vals[]`:
`answer=0, answerCount=0`, then the candidate scan. -/
def measure (vals : List Int) : Int := voteLoop vals 0 0

/-- The `vals[i]=getDistance(...)` sampling loop: every raw reading,
failed (`0`, stored as `-1`) or not, is stored; nothing is discarded. -/
def sampleVals (raws : List Int) : List Int := raws.map getDistance

/-- A full measurement from the raw sensor readings. -/
def measureRaw (raws : List Int) : Int := measure (sampleVals raws)

/-- `measure()` takes its readings at indices `0..SAMPLE_COUNT-1` of the
reading stream. -/
def takeSamples (read : Nat → Int) : List Int :=
  (List.range SAMPLE_COUNT).map read

/-- Result of one `sendOrNot()` call: the updated RTC state, whether a
report was sent, how many publish attempts were made, and the logged
publish outcome (`some ok` if `report()` ran). -/
structure SendResult where
  rtc : MY_RTC
  sent : Bool
  publishAttempts : Nat
  publishOutcome : Option Bool
deriving DecidableEq, Repr

/-- `report()`: publishes once and logs success or failure; the outcome is
only printed, nothing else depends on it. -/
def report (pubOk : Bool) : Bool := pubOk

/-- `myMillis()>myRtc.nextHealthReportTime`, the heartbeat test that
`sendOrNot()` evaluates at lines 544 and 563. -/
def heartbeatDue (millis : Nat) (s : MY_RTC) : Bool :=
  decide (myMillis millis s.rtc > s.nextHealthReportTime)

/-- The full report condition of `sendOrNot()` (lines 544-546). -/
def shouldSend (millis : Nat) (isPresent : Bool) (s : MY_RTC) : Bool :=
  heartbeatDue millis s
    || (!s.wasPresent && !isPresent && !s.absentReported)
    || (s.wasPresent && isPresent && !s.presentReported)

/-- `sendOrNot()` embedded: decides on heartbeat / two-consecutive-equal
readings, calls `report()` once if so, updates the reported flags, resets
`myRtc.rtc` to `millis()` when the heartbeat was due (line 565), and then
sets `nextHealthReportTime = myMillis()+ONE_HOUR` — note line 567 re-reads
`myMillis()` after the possible `rtc` reset. `pubOk` is the transport's
publish result. -/
def sendOrNot (millis : Nat) (isPresent pubOk : Bool) (s : MY_RTC) :
    SendResult :=
  if shouldSend millis isPresent s then
    let outcome := report pubOk
    let s1 := if isPresent then
        { s with presentReported := true, absentReported := false }
      else
        { s with absentReported := true, presentReported := false }
    let s2 := if heartbeatDue millis s then
        { s1 with rtc := millis % U32 }
      else s1
    let s3 := { s2 with
        nextHealthReportTime := (myMillis millis s2.rtc + ONE_HOUR) % U32 }
    ⟨s3, true, 1, some outcome⟩
  else ⟨s, false, 0, none⟩

/-- Result of one `loop()` pass: updated RTC state, whether the continuous
branch measured and reported, and the deep-sleep request (seconds) if the
sleep branch ran. -/
structure LoopResult where
  rtc : MY_RTC
  measured : Bool
  reported : Bool
  sleepSeconds : Option Nat
deriving DecidableEq, Repr

/-- `loop()` embedded.  Branch 1 (`settingsAreValid && sleeptime==0`):
measure, show, `report()` — unconditional, `myRtc` untouched.  Branch 2
(`settingsAreValid && millis()-doneTimestamp>PUBLISH_DELAY`): compute
`nextReportSecs=(nextHealthReportTime-myMillis())/1000` (32-bit wrapping
subtraction, line 487), repair a "bogus" health report time to `myMillis()`
when the wrapped difference exceeds `ONE_HOUR` (lines 497-501), set
`rtc = myMillis()+sleeptime*1000` and `wasPresent = isPresent`
(lines 504-505), then deep-sleep for
`min(sleeptime, nextReportSecs)` seconds (lines 514-518).
`isPresent` is the global presence flag set by the last measurement. -/
def loop (settingsAreValid : Bool) (sleeptime : Nat)
    (millis doneTimestamp : Nat) (isPresent : Bool) (s : MY_RTC) :
    LoopResult :=
  if settingsAreValid && decide (sleeptime = 0) then
    ⟨s, true, true, none⟩
  else if settingsAreValid
      && decide (usub millis doneTimestamp > PUBLISH_DELAY) then
    let now := myMillis millis s.rtc
    let nextReportSecs := usub s.nextHealthReportTime now / 1000
    let s1 := if decide (usub s.nextHealthReportTime now > ONE_HOUR) then
        { s with nextHealthReportTime := now }
      else s
    let s2 := { s1 with
                rtc := (now + sleeptime * 1000) % U32
                wasPresent := isPresent }
    ⟨s2, false, false, some (min sleeptime nextReportSecs)⟩
  else ⟨s, false, false, none⟩

/-- One full sleep-mode wake cycle: `setup()` runs `sendOrNot()` on the
fresh measurement, then `loop()`'s sleep branch persists state and sleeps.
`sendOrNot` runs at `millis()=0` (fresh boot); the sleep branch runs a
moment later at `millis()=1000` with `doneTimestamp=0`. -/
def cycle (isPresent : Bool) (s : MY_RTC) : MY_RTC × Bool :=
  let r := sendOrNot 0 isPresent true s
  let l := loop true 300 1000 0 isPresent r.rtc
  (l.rtc, r.sent)

/-- Run sleep-mode wake cycles over a presence sequence, returning the
report decision of each cycle. -/
def runTrace : List Bool → MY_RTC → List Bool
  | [], _ => []
  | p :: ps, s =>
    let c := cycle p s
    c.2 :: runTrace ps c.1

/-! ### Specification-side functions

These follow the spec's words, to be compared with the embedded code. -/

/-- The best head-count over the proper suffixes that `measure()`'s outer
loop visits (every suffix of length ≥ 2, candidate = suffix head, count =
occurrences of the head in the suffix). -/
def bestCount : List Int → Nat
  | [] => 0
  | [_] => 0
  | x :: y :: r => max (1 + countVal x (y :: r)) (bestCount (y :: r))

/-- The head of the earliest suffix attaining `bestCount`. -/
def bestVal : List Int → Int
  | [] => 0
  | [_] => 0
  | x :: y :: r =>
    if bestCount (y :: r) ≤ 1 + countVal x (y :: r) then x
    else bestVal (y :: r)

/-- Spec §4.1: the highest occurrence count among the samples. -/
def maxOcc (l : List Int) : Nat :=
  (l.map fun v => countVal v l).foldr max 0

/-- Spec §4.1: "the value with the highest occurrence count among the `n`
samples; ties are broken by earliest-occurring value in the sample
sequence" — the first sample whose occurrence count is maximal. -/
def firstMode (l : List Int) : Int :=
  match l.find? fun v => countVal v l == maxOcc l with
  | some v => v
  | none => 0

/-- Spec §4.4: `seconds = min(configuredIntervalSeconds,
max(0, (nextHeartbeatDeadline - now) / 1000))`, with a true (signed,
non-wrapping) subtraction as the spec's formula reads. -/
def computeSleepSecondsSpec (interval now deadline : Nat) : Nat :=
  min interval ((max 0 ((deadline : Int) - (now : Int))).toNat / 1000)

/-! ### Lemmas about the plurality vote -/

theorem countVal_cons (v x : Int) (l : List Int) :
    countVal v (x :: l) = (if x = v then 1 else 0) + countVal v l := rfl

theorem countVal_self_cons (x : Int) (l : List Int) :
    countVal x (x :: l) = 1 + countVal x l := by
  simp [countVal_cons]

theorem countVal_append (v : Int) (a b : List Int) :
    countVal v (a ++ b) = countVal v a + countVal v b := by
  induction a with
  | nil => simp [countVal]
  | cons x t ih => simp [countVal_cons, ih]; omega

/-- The candidate scan returns the running answer unless some visited
suffix-head count strictly beats the running count, in which case it
returns the head of the earliest suffix attaining the best count. -/
theorem voteLoop_spec (l : List Int) : ∀ (ans : Int) (c : Nat),
    voteLoop l ans c = if c < bestCount l then bestVal l else ans := by
  induction l with
  | nil => intro ans c; simp [voteLoop, bestCount]
  | cons x t ih =>
    intro ans c
    cases t with
    | nil => simp [voteLoop, bestCount]
    | cons y r =>
      rw [voteLoop]
      by_cases hcs : c < 1 + countVal x (y :: r)
      · rw [if_pos hcs, ih]
        have h1 : c < bestCount (x :: y :: r) :=
          lt_of_lt_of_le hcs (by rw [bestCount]; exact le_max_left _ _)
        rw [if_pos h1]
        by_cases hMs : bestCount (y :: r) ≤ 1 + countVal x (y :: r)
        · rw [bestVal, if_pos hMs, if_neg (not_lt.mpr hMs)]
        · rw [bestVal, if_neg hMs, if_pos (not_le.mp hMs)]
      · rw [if_neg hcs, ih]
        have hsc : 1 + countVal x (y :: r) ≤ c := not_lt.mp hcs
        by_cases hcM : c < bestCount (y :: r)
        · have h1 : c < bestCount (x :: y :: r) :=
            lt_of_lt_of_le hcM (by rw [bestCount]; exact le_max_right _ _)
          rw [if_pos hcM, if_pos h1, bestVal,
            if_neg (by omega : ¬ bestCount (y :: r) ≤ 1 + countVal x (y :: r))]
        · have h1 : ¬ c < bestCount (x :: y :: r) := by
            rw [bestCount, lt_max_iff]
            push_neg
            exact ⟨hsc, not_lt.mp hcM⟩
          rw [if_neg hcM, if_neg h1]

theorem le_foldrMax (xs : List Nat) (a : Nat) (h : a ∈ xs) :
    a ≤ xs.foldr max 0 := by
  induction xs with
  | nil => cases h
  | cons x t ih =>
    rcases List.mem_cons.mp h with h1 | h1
    · subst h1; exact le_max_left _ _
    · exact le_trans (ih h1) (le_max_right _ _)

theorem foldrMax_le (xs : List Nat) (b : Nat) (h : ∀ a ∈ xs, a ≤ b) :
    xs.foldr max 0 ≤ b := by
  induction xs with
  | nil => simp
  | cons x t ih =>
    simp only [List.foldr_cons]
    exact max_le (h x (List.mem_cons_self x t))
      (ih fun a ha => h a (List.mem_cons_of_mem x ha))

theorem countVal_le_maxOcc (l : List Int) (v : Int) (h : v ∈ l) :
    countVal v l ≤ maxOcc l :=
  le_foldrMax _ _ (List.mem_map_of_mem (fun w => countVal w l) h)

theorem bestCount_le_maxOcc_aux (l : List Int) : ∀ pre : List Int,
    bestCount l ≤ maxOcc (pre ++ l) := by
  induction l with
  | nil => intro pre; simp [bestCount]
  | cons x t ih =>
    intro pre
    cases t with
    | nil => simp [bestCount]
    | cons y r =>
      rw [bestCount]
      refine max_le ?hx ?ht
      · have hmem : x ∈ pre ++ x :: y :: r := by simp
        calc 1 + countVal x (y :: r) = countVal x (x :: y :: r) :=
              (countVal_self_cons x (y :: r)).symm
          _ ≤ countVal x (pre ++ x :: y :: r) := by
              rw [countVal_append]; omega
          _ ≤ maxOcc (pre ++ x :: y :: r) := countVal_le_maxOcc _ _ hmem
      · have h2 := ih (pre ++ [x])
        rwa [List.append_assoc, List.singleton_append] at h2

theorem countVal_le_bestCount (l : List Int) : 2 ≤ l.length →
    ∀ v ∈ l, countVal v l ≤ bestCount l := by
  induction l with
  | nil => intro h; simp at h
  | cons x t ih =>
    intro hlen v hv
    cases t with
    | nil => simp at hlen
    | cons y r =>
      rw [bestCount]
      rcases List.mem_cons.mp hv with h1 | h1
      · subst h1
        rw [countVal_self_cons]
        exact le_trans (le_refl _) (le_max_left _ _)
      · by_cases hx : x = v
        · subst hx
          rw [countVal_self_cons]
          exact le_max_left _ _
        · rw [countVal_cons, if_neg hx, Nat.zero_add]
          cases r with
          | nil =>
            rcases List.mem_cons.mp h1 with h2 | h2
            · subst h2
              have : countVal v [v] = 1 := by simp [countVal]
              rw [this]
              exact le_trans (by omega : 1 ≤ 1 + countVal x [v])
                (le_max_left _ _)
            · cases h2
          | cons z r2 =>
            exact le_trans (ih (by simp) v h1) (le_max_right _ _)

theorem bestCount_eq_maxOcc (l : List Int) (h : 2 ≤ l.length) :
    bestCount l = maxOcc l := by
  refine le_antisymm ?h1 ?h2
  · have := bestCount_le_maxOcc_aux l []
    rwa [List.nil_append] at this
  · refine foldrMax_le _ _ ?_
    intro a ha
    rcases List.mem_map.mp ha with ⟨v, hv, rfl⟩
    exact countVal_le_bestCount l h v hv

theorem find?_congr_mem {α : Type} (l : List α) (p q : α → Bool)
    (h : ∀ a ∈ l, p a = q a) : l.find? p = l.find? q := by
  induction l with
  | nil => rfl
  | cons x t ih =>
    rw [List.find?_cons, List.find?_cons, h x (List.mem_cons_self x t)]
    cases q x with
    | true => rfl
    | false => exact ih fun a ha => h a (List.mem_cons_of_mem x ha)

theorem bestVal_eq_firstMode (l : List Int) : 2 ≤ l.length →
    bestVal l = firstMode l := by
  induction l with
  | nil => intro h; simp at h
  | cons x t ih =>
    intro hlen
    cases t with
    | nil => simp at hlen
    | cons y r =>
      have hbc : bestCount (x :: y :: r)
          = max (1 + countVal x (y :: r)) (bestCount (y :: r)) := rfl
      have hmx : maxOcc (x :: y :: r)
          = max (1 + countVal x (y :: r)) (bestCount (y :: r)) := by
        rw [← bestCount_eq_maxOcc _ (by simp), hbc]
      by_cases hMs : bestCount (y :: r) ≤ 1 + countVal x (y :: r)
      · have hmax : maxOcc (x :: y :: r) = 1 + countVal x (y :: r) := by
          rw [hmx]; exact max_eq_left hMs
        have hpx : (countVal x (x :: y :: r) == maxOcc (x :: y :: r))
            = true := by
          rw [countVal_self_cons, hmax]; simp
        rw [bestVal, if_pos hMs, firstMode, List.find?_cons, hpx]
      · have hs : 1 + countVal x (y :: r) < bestCount (y :: r) :=
          not_le.mp hMs
        have hmax : maxOcc (x :: y :: r) = bestCount (y :: r) := by
          rw [hmx]; exact max_eq_right (le_of_lt hs)
        have hrne : r ≠ [] := by
          intro hr
          subst hr
          rw [bestCount] at hs
          omega
        have hrlen : 2 ≤ (y :: r).length := by
          cases r with
          | nil => exact absurd rfl hrne
          | cons z r2 => simp
        have hpx : (countVal x (x :: y :: r) == maxOcc (x :: y :: r))
            = false := by
          rw [countVal_self_cons, hmax]
          simp only [beq_eq_false_iff_ne, ne_eq]
          omega
        have hagree : ∀ v ∈ y :: r,
            (countVal v (x :: y :: r) == maxOcc (x :: y :: r))
              = (countVal v (y :: r) == maxOcc (y :: r)) := by
          intro v hv
          rw [hmax, ← bestCount_eq_maxOcc _ hrlen]
          by_cases hxv : x = v
          · subst hxv
            rw [countVal_self_cons]
            have h1 : (1 + countVal x (y :: r) == bestCount (y :: r))
                = false := by
              simp only [beq_eq_false_iff_ne, ne_eq]; omega
            have h2 : (countVal x (y :: r) == bestCount (y :: r))
                = false := by
              simp only [beq_eq_false_iff_ne, ne_eq]; omega
            rw [h1, h2]
          · rw [countVal_cons, if_neg hxv, Nat.zero_add]
        rw [bestVal, if_neg hMs, firstMode, List.find?_cons, hpx,
          find?_congr_mem _ _ _ hagree, ih hrlen, firstMode]

theorem bestCount_pos (l : List Int) (h : 2 ≤ l.length) :
    0 < bestCount l := by
  cases l with
  | nil => simp at h
  | cons x t =>
    cases t with
    | nil => simp at h
    | cons y r =>
      rw [bestCount]
      have : 0 < 1 + countVal x (y :: r) := by omega
      exact lt_of_lt_of_le this (le_max_left _ _)

theorem measure_eq_firstMode (vals : List Int) (h : 2 ≤ vals.length) :
    measure vals = firstMode vals := by
  rw [measure, voteLoop_spec, if_pos (bestCount_pos vals h),
    bestVal_eq_firstMode vals h]

/-! ### Lemmas about the scheduler state machine -/

theorem usub_eq_sub (a b : Nat) (ha : a < U32) (hba : b ≤ a) :
    usub a b = a - b := by
  have hb : b < U32 := lt_of_le_of_lt hba ha
  rw [usub, Nat.mod_eq_of_lt hb]
  have h1 : a + U32 - b = U32 + (a - b) := by omega
  rw [h1, Nat.add_mod_left]
  exact Nat.mod_eq_of_lt (by omega)

theorem myMillis_lt_U32 (millis rtc : Nat) : myMillis millis rtc < U32 := by
  rw [myMillis]
  exact Nat.mod_lt _ (by norm_num [U32])

/-- The reported flags after `sendOrNot()`: set to "exactly the current
presence side" on a send, untouched otherwise. -/
theorem sendOrNot_rtc_flags (millis : Nat) (p pub : Bool) (s : MY_RTC) :
    ((sendOrNot millis p pub s).rtc.presentReported
        = if (sendOrNot millis p pub s).sent = true then p
          else s.presentReported)
    ∧ ((sendOrNot millis p pub s).rtc.absentReported
        = if (sendOrNot millis p pub s).sent = true then !p
          else s.absentReported) := by
  by_cases h : shouldSend millis p s
  · cases p <;> by_cases hb : heartbeatDue millis s <;>
      simp [sendOrNot, h, hb]
  · simp [sendOrNot, h]

/-- `loop()` never touches the reported flags. -/
theorem loop_rtc_flags (valid : Bool) (sleeptime millis doneTimestamp : Nat)
    (p : Bool) (s : MY_RTC) :
    (loop valid sleeptime millis doneTimestamp p s).rtc.presentReported
        = s.presentReported
    ∧ (loop valid sleeptime millis doneTimestamp p s).rtc.absentReported
        = s.absentReported := by
  rw [loop]
  split
  · simp
  · split
    · by_cases hfix :
        usub s.nextHealthReportTime (myMillis millis s.rtc) > ONE_HOUR <;>
        simp [hfix]
    · simp

/-- Persistent states reachable from the default-initialized RTC memory by
`sendOrNot()` calls (from `setup()`) and `loop()` passes. -/
inductive Reachable : MY_RTC → Prop where
  | init : Reachable initialRtc
  | stepSend (millis : Nat) (p pub : Bool) {s : MY_RTC} :
      Reachable s → Reachable (sendOrNot millis p pub s).rtc
  | stepLoop (valid : Bool) (sleeptime millis doneTimestamp : Nat)
      (p : Bool) {s : MY_RTC} :
      Reachable s → Reachable (loop valid sleeptime millis doneTimestamp p s).rtc

/-! ### Claim theorems -/

/-- Start state for the debounce scenario: heartbeat deadline one hour
out (never due within the trace), both sent-flags clear, and the stored
previous presence `true`, so that the first `false` sample is a fresh
disagreement and the 2nd sample is the first confirmed-absent pair. -/
def debounceInit : MY_RTC :=
  { nextHealthReportTime := ONE_HOUR, rtc := 0, wasPresent := true
    presentReported := false, absentReported := false, rssi := -99 }

/-- C1: `sendOrNot` reports iff the heartbeat is due
(`now > nextHealthReportTime`), or the previous and current presence are
both `false` with the absent-report flag clear, or both `true` with the
present-report flag clear; and over the presence sequence
`[false, false, true, true, true]` with the heartbeat never due and both
sent-flags initially clear, reports fire exactly on the 2nd and 4th
cycles, not on the 3rd or 5th. -/
theorem sendOrNot_decision_iff_and_debounce :
    (∀ (millis : Nat) (p pub : Bool) (s : MY_RTC),
      (sendOrNot millis p pub s).sent =
        (decide (myMillis millis s.rtc > s.nextHealthReportTime)
          || (!s.wasPresent && !p && !s.absentReported)
          || (s.wasPresent && p && !s.presentReported)))
    ∧ runTrace [false, false, true, true, true] debounceInit
        = [false, true, false, true, false] := by
  constructor
  · intro millis p pub s
    by_cases h : shouldSend millis p s
    · rw [sendOrNot, if_pos h]
      rw [shouldSend, heartbeatDue] at h
      exact h.symm
    · rw [sendOrNot, if_neg h]
      rw [shouldSend, heartbeatDue] at h
      simpa using (Bool.not_eq_true _).mp h
  · decide

/-- C2 counterexample: a loaded state whose deadline (3 601 001 ms)
exceeds logical now (1 000 ms) plus `ONE_HOUR` is repaired by the sleep
branch of `loop()` to `now` (1 000), not to `now + ONE_HOUR` (3 601 000)
as the claim states. -/
theorem healthRepair_value_counterexample :
    (3601001 : Nat) > myMillis 1000 0 + ONE_HOUR
    ∧ (loop true 300 1000 0 false
        (⟨3601001, 0, false, false, false, -99⟩ : MY_RTC)
       ).rtc.nextHealthReportTime = myMillis 1000 0
    ∧ myMillis 1000 0 ≠ myMillis 1000 0 + ONE_HOUR := by decide

/-- C2 (amended): whenever the loaded deadline exceeds
`currentLogicalTime() + ONE_HOUR`, the sleep branch of `loop()` repairs it
— but to exactly `currentLogicalTime()` (making the heartbeat immediately
due), not to `currentLogicalTime() + ONE_HOUR`; the repaired value
re-establishes the invariant `deadline ≤ now + ONE_HOUR`. -/
theorem healthRepair_resync (sleeptime millis doneTimestamp : Nat)
    (p : Bool) (s : MY_RTC) (h0 : sleeptime ≠ 0)
    (h1 : usub millis doneTimestamp > PUBLISH_DELAY)
    (h2 : s.nextHealthReportTime < U32)
    (h3 : myMillis millis s.rtc + ONE_HOUR < s.nextHealthReportTime) :
    (loop true sleeptime millis doneTimestamp p s).rtc.nextHealthReportTime
      = myMillis millis s.rtc
    ∧ (loop true sleeptime millis doneTimestamp p s).rtc.nextHealthReportTime
      ≤ myMillis millis s.rtc + ONE_HOUR := by
  have hle : myMillis millis s.rtc ≤ s.nextHealthReportTime := by omega
  have hu : usub s.nextHealthReportTime (myMillis millis s.rtc)
      = s.nextHealthReportTime - myMillis millis s.rtc :=
    usub_eq_sub _ _ h2 hle
  have hcond : usub s.nextHealthReportTime (myMillis millis s.rtc)
      > ONE_HOUR := by
    rw [hu]; omega
  have hres : (loop true sleeptime millis doneTimestamp p s
      ).rtc.nextHealthReportTime = myMillis millis s.rtc := by
    simp [loop, h0, h1, hcond]
  exact ⟨hres, by rw [hres]; omega⟩

/-- Witness for `healthRepair_resync` at a concrete corrupted state. -/
theorem healthRepair_resync_witness :
    (loop true 300 1000 0 false
      (⟨3601001, 0, false, false, false, -99⟩ : MY_RTC)
     ).rtc.nextHealthReportTime = myMillis 1000 0 :=
  (healthRepair_resync 300 1000 0 false _
    (by decide) (by decide) (by decide) (by decide)).1

/-- C3 counterexample: with the heartbeat deadline at 0 already in the
past of logical now = 1 000 ms and a 300 s interval, the spec formula
`min(interval, max(0, (deadline-now)/1000))` yields 0 but the code's
wrapping subtraction makes `nextReportSecs` huge, so `loop()` sleeps the
full 300 s. -/
theorem sleepSeconds_counterexample :
    (0 : Nat) < myMillis 1000 0
    ∧ (loop true 300 1000 0 false
        (⟨0, 0, false, false, false, -99⟩ : MY_RTC)).sleepSeconds
      = some 300
    ∧ computeSleepSecondsSpec 300 (myMillis 1000 0) 0 = 0
    ∧ (300 : Nat) ≠ 0 := by decide

/-- C3 (amended): the sleep branch requests
`min(sleeptime, ((deadline - now) mod 2^32) / 1000)` seconds; this equals
the spec's `min(interval, max(0,(deadline-now)/1000))` whenever the
deadline has not already passed (`now ≤ deadline`), e.g. 200 s for a
300 s interval with the deadline 200 000 ms away, but for a deadline
strictly in the past the wrapped difference is huge and the device sleeps
the full configured interval instead of 0. -/
theorem sleepSeconds_formula (sleeptime millis doneTimestamp : Nat)
    (p : Bool) (s : MY_RTC) (h0 : sleeptime ≠ 0)
    (h1 : usub millis doneTimestamp > PUBLISH_DELAY) :
    (loop true sleeptime millis doneTimestamp p s).sleepSeconds
      = some (min sleeptime
          (usub s.nextHealthReportTime (myMillis millis s.rtc) / 1000))
    ∧ (s.nextHealthReportTime < U32 →
        myMillis millis s.rtc ≤ s.nextHealthReportTime →
        (loop true sleeptime millis doneTimestamp p s).sleepSeconds
          = some (computeSleepSecondsSpec sleeptime (myMillis millis s.rtc)
              s.nextHealthReportTime)) := by
  have hmain : (loop true sleeptime millis doneTimestamp p s).sleepSeconds
      = some (min sleeptime
          (usub s.nextHealthReportTime (myMillis millis s.rtc) / 1000)) := by
    simp [loop, h0, h1]
  refine ⟨hmain, fun ha hle => ?_⟩
  rw [hmain, computeSleepSecondsSpec, usub_eq_sub _ _ ha hle]
  have htn : (max 0 ((s.nextHealthReportTime : Int)
      - (myMillis millis s.rtc : Int))).toNat
      = s.nextHealthReportTime - myMillis millis s.rtc := by
    omega
  rw [htn]

/-- Witness for `sleepSeconds_formula`: interval 300 s, deadline
200 000 ms ahead of logical now = 1 000 ms, both conjuncts at work;
the planned sleep is 200 s. -/
theorem sleepSeconds_formula_witness :
    (loop true 300 1000 0 false
      (⟨201000, 0, false, false, false, -99⟩ : MY_RTC)).sleepSeconds
      = some (computeSleepSecondsSpec 300 (myMillis 1000 0) 201000)
    ∧ computeSleepSecondsSpec 300 (myMillis 1000 0) 201000 = 200 :=
  ⟨(sleepSeconds_formula 300 1000 0 false _
      (by decide) (by decide)).2 (by decide) (by decide),
   by decide⟩

/-- C4: in every reachable persistent state the two report-sent flags are
never simultaneously true, and any `sendOrNot` decision that sends a
report leaves exactly one of them set — the one matching the current
presence — clearing the other. -/
theorem reported_flags_exclusive :
    (∀ s : MY_RTC, Reachable s →
      ¬(s.presentReported = true ∧ s.absentReported = true))
    ∧ (∀ (millis : Nat) (p pub : Bool) (s : MY_RTC),
        (sendOrNot millis p pub s).sent = true →
          (sendOrNot millis p pub s).rtc.presentReported = p
          ∧ (sendOrNot millis p pub s).rtc.absentReported = !p) := by
  have hsent : ∀ (millis : Nat) (p pub : Bool) (s : MY_RTC),
      (sendOrNot millis p pub s).sent = true →
        (sendOrNot millis p pub s).rtc.presentReported = p
        ∧ (sendOrNot millis p pub s).rtc.absentReported = !p := by
    intro millis p pub s hs
    rcases sendOrNot_rtc_flags millis p pub s with ⟨h1, h2⟩
    rw [h1, h2, if_pos hs, if_pos hs]
    exact ⟨rfl, rfl⟩
  refine ⟨?_, hsent⟩
  intro s hs
  induction hs with
  | init => simp [initialRtc]
  | stepSend millis p pub hr ih =>
    rename_i t
    by_cases hb : (sendOrNot millis p pub t).sent = true
    · rcases hsent millis p pub t hb with ⟨h1, h2⟩
      rw [h1, h2]
      cases p <;> simp
    · rcases sendOrNot_rtc_flags millis p pub t with ⟨h1, h2⟩
      rw [h1, h2, if_neg hb, if_neg hb]
      exact ih
  | stepLoop valid sleeptime millis doneTimestamp p hr ih =>
    rename_i t
    rcases loop_rtc_flags valid sleeptime millis doneTimestamp p t
      with ⟨h1, h2⟩
    rw [h1, h2]
    exact ih

/-- Witness for `reported_flags_exclusive`: the initial state, and a
heartbeat-due send with presence `true`. -/
theorem reported_flags_exclusive_witness :
    ¬(initialRtc.presentReported = true ∧ initialRtc.absentReported = true)
    ∧ ((sendOrNot 1 true true initialRtc).rtc.presentReported = true
       ∧ (sendOrNot 1 true true initialRtc).rtc.absentReported = !true) :=
  ⟨reported_flags_exclusive.1 initialRtc Reachable.init,
   reported_flags_exclusive.2 1 true true initialRtc (by decide)⟩

/-- C5 counterexample: a continuous-mode (`sleeptime = 0`) pass with
current presence `true` ends with the persisted `wasPresent` still
`false` — the continuous branch of `loop()` never writes it. -/
theorem wasPresent_continuous_counterexample :
    initialRtc.wasPresent = false
    ∧ (loop true 0 7 0 true initialRtc).rtc = initialRtc
    ∧ (loop true 0 7 0 true initialRtc).rtc.wasPresent ≠ true := by decide

theorem wasPresent_sleep_branch_aux (q : Bool) (t : MY_RTC) :
    (loop true 300 1000 0 q t).rtc.wasPresent = q := by
  have hc : usub 1000 0 > PUBLISH_DELAY := by decide
  simp [loop, hc]

/-- C5 (amended): in sleep mode (the deep-sleep branch of `loop()`), the
persisted `wasPresent` is set to the current cycle's presence before
suspension, whether or not a report was sent — in particular a whole
sleep-mode wake `cycle` (decision plus sleep branch) always ends with
`wasPresent` equal to the cycle's presence; in continuous mode it is not
updated. -/
theorem wasPresent_updated_each_sleep_cycle
    (sleeptime millis doneTimestamp : Nat) (p : Bool) (s : MY_RTC)
    (h0 : sleeptime ≠ 0)
    (h1 : usub millis doneTimestamp > PUBLISH_DELAY) :
    (loop true sleeptime millis doneTimestamp p s).rtc.wasPresent = p
    ∧ (∀ (q : Bool) (t : MY_RTC), (cycle q t).1.wasPresent = q) := by
  constructor
  · simp [loop, h0, h1]
  · intro q t
    simp only [cycle]
    exact wasPresent_sleep_branch_aux q (sendOrNot 0 q true t).rtc

/-- Witness for `wasPresent_updated_each_sleep_cycle`. -/
theorem wasPresent_updated_witness :
    (loop true 300 1000 0 true initialRtc).rtc.wasPresent = true :=
  (wasPresent_updated_each_sleep_cycle 300 1000 0 true initialRtc
    (by decide) (by decide)).1

/-- C6: `measure()` takes exactly `SAMPLE_COUNT` (5) readings and, for
any 5 samples, returns the value with the highest occurrence count, ties
broken by earliest occurrence in the sample sequence; in particular
`[100,100,105,105,0] ↦ 100` and `[100,100,100,105,999] ↦ 100`. -/
theorem measure_plurality_vote :
    (∀ read : Nat → Int, (takeSamples read).length = SAMPLE_COUNT)
    ∧ (∀ vals : List Int, vals.length = SAMPLE_COUNT →
        measure vals = firstMode vals)
    ∧ measure [100, 100, 105, 105, 0] = 100
    ∧ measure [100, 100, 100, 105, 999] = 100 := by
  refine ⟨?_, ?_, by decide, by decide⟩
  · intro read
    simp [takeSamples]
  · intro vals h
    exact measure_eq_firstMode vals (by rw [h]; decide)

/-- Witness for `measure_plurality_vote` on a concrete all-distinct
sample list (max count 1, earliest wins). -/
theorem measure_plurality_vote_witness :
    measure [7, 3, 9, 4, 2] = firstMode [7, 3, 9, 4, 2] :=
  measure_plurality_vote.2.1 [7, 3, 9, 4, 2] (by decide)

/-- C7: failed readings (raw sentinel 0, stored as `-1` by
`getDistance()`) are not discarded: the stored sample list keeps every
reading, a failed read contributes `-1` to the vote like any other value
(and a majority of failures wins the vote), and no read aborts the
measurement. -/
theorem failed_reads_participate :
    (∀ raws : List Int, (sampleVals raws).length = raws.length)
    ∧ getDistance 0 = -1
    ∧ (∀ raws : List Int, (0 : Int) ∈ raws → (-1 : Int) ∈ sampleVals raws)
    ∧ measureRaw [0, 0, 0, 100, 100] = -1 := by
  refine ⟨?_, by decide, ?_, by decide⟩
  · intro raws
    simp [sampleVals]
  · intro raws h
    simpa [sampleVals, getDistance] using
      List.mem_map_of_mem getDistance h

/-- Witness for `failed_reads_participate`: one failed read among five. -/
theorem failed_reads_participate_witness :
    (-1 : Int) ∈ sampleVals [100, 0, 100, 105, 105] :=
  failed_reads_participate.2.2.1 [100, 0, 100, 105, 105] (by decide)

/-- C8: with a 300 s interval and the heartbeat deadline 200 000 ms ahead
of logical now = 1 000 ms, `loop()` requests a 200 s suspension but sets
the persisted offset to `myMillis() + 300*1000` = 301 000, i.e. advances
the logical clock by the full configured interval, not by the 200 000 ms
actually passed to the suspend call. -/
theorem offset_not_planned_duration :
    (loop true 300 1000 0 false
      (⟨201000, 0, false, false, false, -99⟩ : MY_RTC)).sleepSeconds
      = some 200
    ∧ (loop true 300 1000 0 false
        (⟨201000, 0, false, false, false, -99⟩ : MY_RTC)).rtc.rtc
      = 301000
    ∧ (301000 : Nat) ≠ myMillis 1000 0 + 200 * 1000 := by decide

/-- C9: the publish result is only logged; the state `sendOrNot` leaves
behind, its decision, and its single publish attempt are identical for a
failed and a successful publish — no retry, flags and deadline set as on
success. -/
theorem publish_failure_nonfatal :
    ∀ (millis : Nat) (p : Bool) (s : MY_RTC),
      (sendOrNot millis p false s).rtc = (sendOrNot millis p true s).rtc
      ∧ (sendOrNot millis p false s).sent = (sendOrNot millis p true s).sent
      ∧ (∀ pub : Bool, (sendOrNot millis p pub s).publishAttempts ≤ 1)
      ∧ (∀ pub : Bool, (sendOrNot millis p pub s).publishOutcome
          = if (sendOrNot millis p pub s).sent = true then some pub
            else none) := by
  intro millis p s
  by_cases h : shouldSend millis p s <;>
    simp [sendOrNot, h, report]

/-- C10: in continuous mode (`sleeptime = 0`) with valid settings, every
`loop()` pass measures and reports unconditionally, requests no sleep,
and neither consults nor updates the persistent state: the RTC struct
passes through unchanged and the decision is the same for any two
persistent states. -/
theorem continuous_mode_unconditional :
    ∀ (millis doneTimestamp : Nat) (p : Bool) (s t : MY_RTC),
      (loop true 0 millis doneTimestamp p s).measured = true
      ∧ (loop true 0 millis doneTimestamp p s).reported = true
      ∧ (loop true 0 millis doneTimestamp p s).rtc = s
      ∧ (loop true 0 millis doneTimestamp p s).sleepSeconds = none
      ∧ (loop true 0 millis doneTimestamp p s).reported
          = (loop true 0 millis doneTimestamp p t).reported := by
  intro millis doneTimestamp p s t
  simp [loop]

end DeliveryBox
